import Mathlib

/-!
Verification development for `zim_to_dir.cpp`: a shallow embedding of the
filtering-and-batching pipeline (record filter, batch writer, framing format,
argument handling and the main driver), together with theorems about the
embedded definitions.

Modelling conventions:
* machine integers (`size_t`, `uint32_t`) are `Nat` with explicit `% 2^64`
  resp. `% 2^32` where C++ overflow/underflow matters;
* byte sequences are `List Nat` (each element a byte value);
* fallible operations (C++ code that can throw) return `Option`/`Except`;
* the transparent gzip compression of `zstr::ofstream` is identity at this
  level of abstraction: a batch file is modelled by its decompressed contents.
-/

/-! ## The disambiguation pattern table (`std::map<std::string, std::string>`) -/

/-- `std::map` lookup (`count`/`find`), modelled on an association list. -/
def mapFind (m : List (String × String)) (k : String) : Option String :=
  match m with
  | [] => none
  | (k', v) :: rest => if k = k' then some v else mapFind rest k

/-- `std::map::operator[]`: returns the mapped value, and the table after the
access.  When the key is absent, a value-initialized (empty) string is
inserted for it — the access mutates the map. -/
def mapBracket (m : List (String × String)) (k : String) :
    String × List (String × String) :=
  match mapFind m k with
  | some v => (v, m)
  | none => ("", m ++ [(k, "")])

/-- The global `disambig` table: disambiguation patterns in titles for the
supported languages (source lines 16–18). -/
def disambig : List (String × String) :=
  [("hu", "(egyértelműsítő lap)"), ("en", "(disambiguation)")]

/-! ## Records and the record filter -/

/-- One archive record, as exposed by the zim reader collaborator:
`getTitle()`, `getNamespace()`, `isRedirect()`, `isDeleted()`, `getData()`.
`ns` stands for the namespace character. -/
structure Record where
  title : String
  ns : Char
  isRedirect : Bool
  isDeleted : Bool
  data : List Nat
deriving DecidableEq

/-- The disposition of one record under the filter in `main`. -/
inductive Decision where
  | Admit
  | DropNotArticleNamespace
  | DropRedirect
  | DropDeleted
  | DropDisambiguation
deriving DecidableEq

/-- Does `hay` start with `pat`?  (character-wise comparison). -/
def startsWith : List Char → List Char → Bool
  | _, [] => true
  | [], _ :: _ => false
  | h :: hs, p :: ps => h = p && startsWith hs ps

/-- `std::string::find(pat) != npos`: `pat` occurs (contiguously) in `hay`
at some position, the empty pattern occurring at position 0 of every string. -/
def hasSubstr : List Char → List Char → Bool
  | [], pat => startsWith [] pat
  | h :: hs, pat => startsWith (h :: hs) pat || hasSubstr hs pat

/-- `title.find(pattern) != std::string::npos` on the `std::string`s of the
source, modelled character-wise. -/
def titleFind (title pattern : String) : Bool :=
  hasSubstr title.data pattern.data

/-- The record filter of `main` (source lines 133–151): the `if`/`else if`
chain deciding the disposition of one record, first match wins. -/
def classify (r : Record) (pattern : String) : Decision :=
  if r.ns ≠ 'A' then Decision.DropNotArticleNamespace
  else if r.isRedirect then Decision.DropRedirect
  else if r.isDeleted then Decision.DropDeleted
  else if titleFind r.title pattern then Decision.DropDisambiguation
  else Decision.Admit

/-! ## The batch writer -/

/-- `size_t` arithmetic is modulo `2^64`. -/
def SIZE_T_MOD : Nat := 2 ^ 64

/-- Model of `std::string::max_size()` for `char` strings: the fill
constructor `std::string(count, c)` throws `std::length_error` when `count`
exceeds this bound.  The exact implementation value is irrelevant to the
development; all that matters is that it is far below `2^64 - 21`. -/
def STRING_MAX : Nat := 2 ^ 62 - 1

/-- File-name formatting of `BatchWriter::write` (source lines 94–95):
`num = std::to_string(++curr_num_); num = std::string(zeroes_ - num.length(), '0') + num + ".htmls.gz"`.
The pad count `zeroes_ - num.length()` is computed in `size_t` arithmetic, so
it wraps around when the decimal width of the index exceeds `zeroes`; the
fill constructor then throws `std::length_error`, modelled as `none`. -/
def formatFileName (zeroes idx : Nat) : Option String :=
  let num := toString idx
  let pad := (zeroes + SIZE_T_MOD - num.length) % SIZE_T_MOD
  if pad ≤ STRING_MAX then
    some (String.mk (List.replicate pad '0') ++ num ++ ".htmls.gz")
  else none

/-- The 4 bytes of `htonl n` (big-endian order) for `n < 2^32`. -/
def be32 (n : Nat) : List Nat :=
  [n / 2 ^ 24 % 256, n / 2 ^ 16 % 256, n / 2 ^ 8 % 256, n % 256]

/-- The frame written for one blob: `htonl(static_cast<uint32_t>(blob.size()))`
followed by the raw payload bytes (source lines 99–101). -/
def frameBytes (blob : List Nat) : List Nat :=
  be32 (blob.length % 2 ^ 32) ++ blob

/-- The batch writer state (source lines 81–117).  `files` records, in
creation order, each opened output file's name together with the frames
written to it so far; the last entry is the currently open `out_` sink. -/
structure BatchWriter where
  output_dir : String
  documents : Nat
  zeroes : Nat
  curr_num : Nat
  written : Nat
  files : List (String × List (List Nat))
deriving DecidableEq

/-- The `BatchWriter` constructor (source lines 82–85): `curr_num_(0)`,
`written_(documents)` — the sentinel forcing rotation on the first write. -/
def BatchWriter.init (dir : String) (documents zeroes : Nat) : BatchWriter :=
  { output_dir := dir, documents := documents, zeroes := zeroes,
    curr_num := 0, written := documents, files := [] }

/-- Append one frame to the currently open (i.e. last) file. -/
def appendFrame (files : List (String × List (List Nat))) (fr : List Nat) :
    List (String × List (List Nat)) :=
  match files with
  | [] => []
  | [f] => [(f.1, f.2 ++ [fr])]
  | f :: g :: rest => f :: appendFrame (g :: rest) fr

/-- `BatchWriter::write` (source lines 92–103): rotate to a freshly numbered
file when the current one is full (which the name formatting may abort, see
`formatFileName`), then write the length-prefixed frame and count it. -/
def BatchWriter.write (bw : BatchWriter) (blob : List Nat) : Option BatchWriter :=
  if bw.written = bw.documents then
    match formatFileName bw.zeroes (bw.curr_num + 1) with
    | none => none
    | some name =>
      some { bw with
              curr_num := bw.curr_num + 1,
              files := appendFrame (bw.files ++ [(name, [])]) (frameBytes blob),
              written := 1 }
  else
    some { bw with
            files := appendFrame bw.files (frameBytes blob),
            written := bw.written + 1 }

/-- Run the writer over a whole sequence of admitted payloads. -/
def writeAll (bw : BatchWriter) : List (List Nat) → Option BatchWriter
  | [] => some bw
  | p :: ps =>
    match bw.write p with
    | none => none
    | some bw' => writeAll bw' ps

/-! ## Frame parsing (the consumer side of the format) -/

/-- Parse a decompressed batch-file byte stream as a sequence of frames:
read a 4-byte big-endian length, take that many payload bytes, repeat;
succeeds exactly when the stream is a whole number of well-formed frames. -/
def parseFrames : List Nat → Option (List (List Nat))
  | b0 :: b1 :: b2 :: b3 :: rest =>
    let len := ((b0 * 256 + b1) * 256 + b2) * 256 + b3
    if len ≤ rest.length then
      (parseFrames (rest.drop len)).map (fun ps => rest.take len :: ps)
    else none
  | [] => some []
  | _ => none
termination_by l => l.length
decreasing_by
  simp only [List.length_cons, List.length_drop]
  omega

/-- Parse the decompressed contents of the produced files, in file order,
and concatenate the recovered payload sequences.  Each file's byte stream is
the concatenation of its frames. -/
def parseFiles : List (List (List Nat)) → Option (List (List Nat))
  | [] => some []
  | f :: rest =>
    match parseFrames f.flatten, parseFiles rest with
    | some ps, some qs => some (ps ++ qs)
    | _, _ => none

/-! ## Framing lemmas -/

/-- Decoding the four big-endian bytes of a 32-bit value recovers the value. -/
theorem be32_decode (n : Nat) (h : n < 2 ^ 32) :
    ((n / 2 ^ 24 % 256 * 256 + n / 2 ^ 16 % 256) * 256 + n / 2 ^ 8 % 256) * 256
      + n % 256 = n := by
  omega

/-- Parsing a stream that starts with a well-formed frame peels the frame off. -/
theorem parseFrames_cons (p rest : List Nat) (h : p.length < 2 ^ 32) :
    parseFrames (frameBytes p ++ rest) =
      (parseFrames rest).map (fun ps => p :: ps) := by
  have hmod : p.length % 2 ^ 32 = p.length := Nat.mod_eq_of_lt h
  simp only [frameBytes, be32, hmod, List.cons_append, List.nil_append]
  rw [parseFrames]
  simp only [be32_decode p.length h]
  have hle : p.length ≤ (p ++ rest).length := by
    simp [List.length_append]
  rw [if_pos hle]
  rw [List.take_left, List.drop_left]

/-- Parsing the concatenation of the frames of the payloads in `g` recovers
exactly `g`, provided every payload length fits in 32 bits. -/
theorem parseFrames_framed (g : List (List Nat))
    (h : ∀ p ∈ g, p.length < 2 ^ 32) :
    parseFrames (g.map frameBytes).flatten = some g := by
  induction g with
  | nil => simp [parseFrames]
  | cons p g ih =>
    simp only [List.map_cons, List.flatten_cons]
    rw [parseFrames_cons p _ (h p (by simp))]
    rw [ih (fun q hq => h q (by simp [hq]))]
    rfl

/-- Parsing a list of files whose frames are the framed payloads of the
groups `gs` recovers the concatenation of the groups. -/
theorem parseFiles_grouped (gs : List (List (List Nat)))
    (h : ∀ g ∈ gs, ∀ p ∈ g, p.length < 2 ^ 32) :
    parseFiles (gs.map (List.map frameBytes)) = some gs.flatten := by
  induction gs with
  | nil => simp [parseFiles]
  | cons g gs ih =>
    simp only [List.map_cons, List.flatten_cons]
    rw [parseFiles]
    rw [parseFrames_framed g (h g (by simp))]
    rw [ih (fun g' hg' q hq => h g' (by simp [hg']) q hq)]

/-! ## Writer-state invariant -/

/-- Appending a frame acts on the last file. -/
theorem appendFrame_concat (xs : List (String × List (List Nat)))
    (y : String × List (List Nat)) (fr : List Nat) :
    appendFrame (xs ++ [y]) fr = xs ++ [(y.1, y.2 ++ [fr])] := by
  induction xs with
  | nil => rfl
  | cons x xs ih =>
    cases xs with
    | nil => rfl
    | cons z zs => simpa [appendFrame] using ih

/-- The states the batch writer can reach from `BatchWriter.init dir docs
zeroes` after writing the payload sequence `ps`: either nothing was written
yet, or the payloads split into the groups `gdone` (the full, closed files)
followed by `gcur` (the currently open file), with the file contents being
exactly the framed payloads of the groups. -/
def Reached (dir : String) (docs zeroes : Nat) (ps : List (List Nat))
    (bw : BatchWriter) : Prop :=
  bw.output_dir = dir ∧ bw.documents = docs ∧ bw.zeroes = zeroes ∧
  ((ps = [] ∧ bw = BatchWriter.init dir docs zeroes) ∨
   (∃ (gdone : List (List (List Nat))) (gcur : List (List Nat)),
      ps = gdone.flatten ++ gcur ∧
      bw.files.map Prod.snd =
        gdone.map (List.map frameBytes) ++ [gcur.map frameBytes] ∧
      (∀ g ∈ gdone, g.length = docs) ∧
      gcur.length = bw.written ∧
      1 ≤ bw.written ∧ bw.written ≤ docs ∧
      bw.curr_num = gdone.length + 1))

/-- One successful `write` preserves the reachability invariant. -/
theorem write_reached {dir : String} {docs zeroes : Nat}
    {ps : List (List Nat)} {bw bw' : BatchWriter} {p : List Nat}
    (hdocs : 0 < docs) (h : Reached dir docs zeroes ps bw)
    (hw : bw.write p = some bw') :
    Reached dir docs zeroes (ps ++ [p]) bw' := by
  obtain ⟨hdir, hdocs_eq, hzer, hcase⟩ := h
  rcases hcase with ⟨hps, hbw⟩ | ⟨gdone, gcur, hps, hfiles, hfull, hcur, h1, h2, hnum⟩
  · -- initial state: the first write rotates to file 1
    subst hps
    rw [hbw, BatchWriter.write] at hw
    rw [if_pos (show (BatchWriter.init dir docs zeroes).written
        = (BatchWriter.init dir docs zeroes).documents from rfl)] at hw
    cases hfn : formatFileName (BatchWriter.init dir docs zeroes).zeroes
        ((BatchWriter.init dir docs zeroes).curr_num + 1) with
    | none => rw [hfn] at hw; cases hw
    | some name =>
      rw [hfn] at hw
      obtain rfl := Option.some.inj hw
      refine ⟨rfl, rfl, rfl,
        Or.inr ⟨[], [p], by simp, ?_, by simp, ?_, Nat.le_refl 1, ?_, ?_⟩⟩
      · show (appendFrame ([] ++ [(name, [])]) (frameBytes p)).map Prod.snd = _
        simp [appendFrame]
      · show ([p] : List (List Nat)).length = 1
        rfl
      · show 1 ≤ docs
        exact hdocs
      · show (0 : Nat) + 1 = ([] : List (List (List Nat))).length + 1
        rfl
  · -- a file is open
    obtain ⟨xs, y, hxy⟩ : ∃ xs y, bw.files = xs ++ [y] := by
      rcases List.eq_nil_or_concat bw.files with hnil | ⟨xs, y, hxy⟩
      · rw [hnil] at hfiles
        simp at hfiles
      · exact ⟨xs, y, by simpa using hxy⟩
    have hsnd : xs.map Prod.snd = gdone.map (List.map frameBytes) ∧
        y.2 = gcur.map frameBytes := by
      rw [hxy] at hfiles
      simp only [List.map_append, List.map_cons, List.map_nil] at hfiles
      have := List.append_inj' hfiles (by simp)
      exact ⟨this.1, by simpa using this.2⟩
    rw [BatchWriter.write] at hw
    by_cases hrot : bw.written = bw.documents
    · -- the open file is full: rotate, then write into the fresh file
      rw [if_pos hrot] at hw
      cases hfn : formatFileName bw.zeroes (bw.curr_num + 1) with
      | none => rw [hfn] at hw; cases hw
      | some name =>
        rw [hfn] at hw
        obtain rfl := Option.some.inj hw
        refine ⟨hdir, hdocs_eq, hzer,
          Or.inr ⟨gdone ++ [gcur], [p], ?_, ?_, ?_, by simp, ?_, ?_, ?_⟩⟩
        · simp [hps]
        · show (appendFrame (bw.files ++ [(name, [])]) (frameBytes p)).map Prod.snd = _
          rw [hxy]
          rw [show (xs ++ [y]) ++ [(name, [])] = xs ++ [y] ++ [(name, [])] from rfl]
          rw [appendFrame_concat (xs ++ [y]) (name, []) (frameBytes p)]
          simp [hsnd.1, hsnd.2]
        · intro g hg
          rcases List.mem_append.1 hg with hg | hg
          · exact hfull g hg
          · simp only [List.mem_singleton] at hg
            subst hg
            rw [hcur, hrot, hdocs_eq]
        · exact Nat.le_refl 1
        · show 1 ≤ docs
          exact hdocs
        · show bw.curr_num + 1 = (gdone ++ [gcur]).length + 1
          simp [hnum]
    · -- room left in the open file: append the frame to it
      rw [if_neg hrot] at hw
      obtain rfl := Option.some.inj hw
      refine ⟨hdir, hdocs_eq, hzer,
        Or.inr ⟨gdone, gcur ++ [p], by simp [hps], ?_, hfull, ?_, ?_, ?_, hnum⟩⟩
      · show (appendFrame bw.files (frameBytes p)).map Prod.snd = _
        rw [hxy, appendFrame_concat]
        simp [hsnd.1, hsnd.2]
      · show (gcur ++ [p]).length = bw.written + 1
        simp [hcur]
      · show 1 ≤ bw.written + 1
        omega
      · show bw.written + 1 ≤ docs
        rw [hdocs_eq] at hrot
        omega

/-- Reachability after a whole successful run. -/
theorem writeAll_reached {dir : String} {docs zeroes : Nat}
    (hdocs : 0 < docs) :
    ∀ (qs : List (List Nat)) (bw bw' : BatchWriter) (ps : List (List Nat)),
      Reached dir docs zeroes ps bw → writeAll bw qs = some bw' →
      Reached dir docs zeroes (ps ++ qs) bw'
  | [], bw, bw', ps, h, hw => by
    rw [writeAll] at hw
    obtain rfl := Option.some.inj hw
    simpa using h
  | q :: qs, bw, bw', ps, h, hw => by
    rw [writeAll] at hw
    cases hq : bw.write q with
    | none => rw [hq] at hw; cases hw
    | some bw1 =>
      rw [hq] at hw
      have h1 := write_reached hdocs h hq
      have := writeAll_reached hdocs qs bw1 bw' (ps ++ [q]) h1 hw
      simpa using this

/-- The invariant holds for every successful run from the initial state. -/
theorem writeAll_init_reached {dir : String} {docs zeroes : Nat}
    {ps : List (List Nat)} {bw : BatchWriter} (hdocs : 0 < docs)
    (h : writeAll (BatchWriter.init dir docs zeroes) ps = some bw) :
    Reached dir docs zeroes ps bw := by
  have := writeAll_reached hdocs ps (BatchWriter.init dir docs zeroes) bw []
    ⟨rfl, rfl, rfl, Or.inl ⟨rfl, rfl⟩⟩ h
  simpa using this

/-! ## Claim C1: framing round-trip -/

/-- C1: for every sequence of admitted payloads, each of byte length
representable in 32 bits, a successful run of the writer produces batch
files which, decompressed in file-index order and parsed as 4-byte
big-endian length-prefixed frames, yield exactly the payloads in admission
order (no separators, header, or trailer). -/
theorem framing_roundtrip (dir : String) (docs zeroes : Nat)
    (ps : List (List Nat)) (bw : BatchWriter)
    (hdocs : 0 < docs) (h32 : ∀ p ∈ ps, p.length < 2 ^ 32)
    (h : writeAll (BatchWriter.init dir docs zeroes) ps = some bw) :
    parseFiles (bw.files.map Prod.snd) = some ps := by
  obtain ⟨-, -, -, hcase⟩ := writeAll_init_reached hdocs h
  rcases hcase with ⟨rfl, rfl⟩ | ⟨gdone, gcur, rfl, hfiles, -, -, -, -, -⟩
  · rfl
  · rw [hfiles]
    rw [show gdone.map (List.map frameBytes) ++ [gcur.map frameBytes]
        = (gdone ++ [gcur]).map (List.map frameBytes) by simp]
    rw [parseFiles_grouped]
    · simp
    · intro g hg q hq
      apply h32
      rcases List.mem_append.1 hg with hg' | hg'
      · exact List.mem_append_left _ (List.mem_flatten.2 ⟨g, hg', hq⟩)
      · simp only [List.mem_singleton] at hg'
        subst hg'
        exact List.mem_append_right _ hq

/-- Witness for C1: a concrete run with capacity 2 and three payloads. -/
theorem framing_roundtrip_witness :
    parseFiles ((BatchWriter.mk "out" 2 4 2 1
      [("0001.htmls.gz", [[0, 0, 0, 3, 1, 2, 3], [0, 0, 0, 1, 4]]),
       ("0002.htmls.gz", [[0, 0, 0, 2, 5, 6]])]).files.map Prod.snd)
      = some [[1, 2, 3], [4], [5, 6]] :=
  framing_roundtrip "out" 2 4 [[1, 2, 3], [4], [5, 6]] _
    (by decide) (by decide) (by decide)

/-! ## Claim C2: capacity invariant -/

/-- C2: for every run from the initial state (`curr_num = 0`,
`written = documents`) and every payload sequence: every produced file
except possibly the last holds exactly `documents` frames, the last file
holds between 1 and `documents` frames, no empty file is created, the empty
sequence produces zero files, and `written ≤ documents` after every write
(the payload sequence being universally quantified, the conclusion applies
to every intermediate state of a longer run as well). -/
theorem capacity_invariant (dir : String) (docs zeroes : Nat)
    (ps : List (List Nat)) (bw : BatchWriter) (hdocs : 0 < docs)
    (h : writeAll (BatchWriter.init dir docs zeroes) ps = some bw) :
    (∀ f ∈ bw.files.dropLast, f.2.length = docs) ∧
    (∀ f, bw.files.getLast? = some f → 1 ≤ f.2.length ∧ f.2.length ≤ docs) ∧
    (∀ f ∈ bw.files, f.2 ≠ []) ∧
    (ps = [] → bw.files = []) ∧
    bw.written ≤ docs := by
  obtain ⟨-, -, -, hcase⟩ := writeAll_init_reached hdocs h
  rcases hcase with ⟨rfl, rfl⟩ | ⟨gdone, gcur, rfl, hfiles, hfull, hcur, h1, h2, -⟩
  · refine ⟨?_, ?_, ?_, fun _ => rfl, Nat.le_refl docs⟩
    · intro f hf
      exact absurd (show f ∈ ([] : List (String × List (List Nat))) from hf)
        (List.not_mem_nil f)
    · intro f hf
      exact absurd (show (none : Option (String × List (List Nat))) = some f from hf)
        (by simp)
    · intro f hf
      exact absurd (show f ∈ ([] : List (String × List (List Nat))) from hf)
        (List.not_mem_nil f)
  · obtain ⟨xs, y, hxy⟩ : ∃ xs y, bw.files = xs ++ [y] := by
      rcases List.eq_nil_or_concat bw.files with hnil | ⟨xs, y, hxy⟩
      · rw [hnil] at hfiles
        simp at hfiles
      · exact ⟨xs, y, by simpa using hxy⟩
    have hsnd : xs.map Prod.snd = gdone.map (List.map frameBytes) ∧
        y.2 = gcur.map frameBytes := by
      rw [hxy] at hfiles
      simp only [List.map_append, List.map_cons, List.map_nil] at hfiles
      have := List.append_inj' hfiles (by simp)
      exact ⟨this.1, by simpa using this.2⟩
    have hmem_len : ∀ f ∈ xs, f.2.length = docs := by
      intro f hf
      have hf2 : f.2 ∈ xs.map Prod.snd := List.mem_map_of_mem Prod.snd hf
      rw [hsnd.1] at hf2
      obtain ⟨g, hg, hfg⟩ := List.mem_map.1 hf2
      rw [← hfg, List.length_map]
      exact hfull g hg
    have hylen : y.2.length = bw.written := by
      rw [hsnd.2, List.length_map, hcur]
    refine ⟨?_, ?_, ?_, ?_, h2⟩
    · intro f hf
      rw [hxy, List.dropLast_concat] at hf
      exact hmem_len f hf
    · intro f hf
      rw [hxy, List.getLast?_concat] at hf
      obtain rfl := Option.some.inj hf.symm
      rw [hylen]
      exact ⟨h1, h2⟩
    · intro f hf
      rw [hxy] at hf
      rcases List.mem_append.1 hf with hf' | hf'
      · have := hmem_len f hf'
        intro hnil
        rw [hnil] at this
        simp at this
        omega
      · simp only [List.mem_singleton] at hf'
        subst hf'
        intro hnil
        rw [hnil] at hylen
        simp at hylen
        omega
    · intro hps0
      exfalso
      have : gcur = [] := (List.append_eq_nil.1 hps0).2
      rw [this] at hcur
      simp at hcur
      omega

/-- Witness for C2 at the same concrete run as C1's witness. -/
theorem capacity_invariant_witness :
    (BatchWriter.mk "out" 2 4 2 1
      [("0001.htmls.gz", [[0, 0, 0, 3, 1, 2, 3], [0, 0, 0, 1, 4]]),
       ("0002.htmls.gz", [[0, 0, 0, 2, 5, 6]])]).written ≤ 2 :=
  (capacity_invariant "out" 2 4 [[1, 2, 3], [4], [5, 6]] _
    (by decide) (by decide)).2.2.2.2

/-! ## The argument parser (`ArgumentParser::parse`, source lines 52–74) -/

/-- The two diagnostic streams of the process. -/
inductive OutStream where
  | stdout
  | stderr
deriving DecidableEq

/-- The help/usage text printed by `options->help({""})` — produced by the
external cxxopts collaborator, its exact contents irrelevant here. -/
def helpText : String := "Converts a static Wikipedia HTML dump in a .zim file to a directory of files."

/-- An already tokenized command line, as seen by `ArgumentParser::parse`:
whether cxxopts raised an `OptionException` (and its message), whether the
help option and the two required options were given, and the value of the
language option (default `"hu"`). -/
structure CmdLine where
  parseError : Option String
  help : Bool
  hasInputFile : Bool
  hasOutputDir : Bool
  language : String
deriving DecidableEq

/-- How `ArgumentParser::parse` ends: `exit(code)`, or returning the parsed
arguments to `main`. -/
inductive ParseOutcome where
  | exited (code : Nat)
  | proceed
deriving DecidableEq

/-- `ArgumentParser::parse` (source lines 52–74), together with everything it
prints: an `OptionException` is reported to `cerr` and exits with 1; a help
request prints usage to `cout` and exits with 0; a missing required option
prints to `cout` and exits with 1; an unsupported language code only prints
a warning to `cout` (no exit); otherwise the parse result is returned. -/
def ArgumentParser.parse (c : CmdLine) : ParseOutcome × List (OutStream × String) :=
  match c.parseError with
  | some e =>
    (ParseOutcome.exited 1, [(OutStream.stderr, "Error parsing options: " ++ e)])
  | none =>
    if c.help then
      (ParseOutcome.exited 0, [(OutStream.stdout, helpText)])
    else if !c.hasInputFile || !c.hasOutputDir then
      (ParseOutcome.exited 1, [(OutStream.stdout, "Both -i and -o must be specified.")])
    else if (mapFind disambig c.language).isNone then
      (ParseOutcome.proceed,
       [(OutStream.stdout,
         "Language '" ++ c.language ++ "' is no supported. Choose between 'en' and 'hu'.")])
    else
      (ParseOutcome.proceed, [])

/-! ## The driver (`main`, source lines 119–157) -/

/-- The post-parse configuration `main` extracts from the arguments. -/
structure Args where
  inputFile : String
  outputDir : String
  language : String
  documents : Nat
  zeroes : Nat
deriving DecidableEq

/-- Implementation-defined `what()` text of the `std::length_error` thrown by
the `std::string` fill constructor during file-name formatting. -/
def lengthErrorWhat : String := "basic_string::_M_create"

/-- The record loop of `main` (source lines 131–152): classify each record,
print its disposition to `cerr`, count and write admitted records (with a
progress line on every 1000th admitted record, printed after the pre-increment
of `doc_no`).  Returns the writer state, the admitted count, the diagnostic
lines and — when a write threw — the exception message, at which point the
remaining records are not processed. -/
def processRecords (pattern : String) :
    List Record → BatchWriter → Nat →
      BatchWriter × Nat × List (OutStream × String) × Option String
  | [], bw, docNo => (bw, docNo, [], none)
  | r :: rs, bw, docNo =>
    match classify r pattern with
    | Decision.DropNotArticleNamespace =>
      let rest := processRecords pattern rs bw docNo
      (rest.1, rest.2.1,
       (OutStream.stderr, "Dropping article " ++ r.title ++ " not in namespace A...") :: rest.2.2.1,
       rest.2.2.2)
    | Decision.DropRedirect =>
      let rest := processRecords pattern rs bw docNo
      (rest.1, rest.2.1,
       (OutStream.stderr, "Dropping redirect article " ++ r.title ++ "...") :: rest.2.2.1,
       rest.2.2.2)
    | Decision.DropDeleted =>
      let rest := processRecords pattern rs bw docNo
      (rest.1, rest.2.1,
       (OutStream.stderr, "Dropping deleted article " ++ r.title ++ "...") :: rest.2.2.1,
       rest.2.2.2)
    | Decision.DropDisambiguation =>
      let rest := processRecords pattern rs bw docNo
      (rest.1, rest.2.1,
       (OutStream.stderr, "Dropping disambiguation article " ++ r.title ++ "...") :: rest.2.2.1,
       rest.2.2.2)
    | Decision.Admit =>
      let docNo' := docNo + 1
      let progress : List (OutStream × String) :=
        if docNo' % 1000 = 0 then
          [(OutStream.stderr, "At the " ++ toString docNo' ++ "th document.")]
        else []
      let wline : OutStream × String :=
        (OutStream.stderr, "Writing articule " ++ r.title ++ "...")
      match bw.write r.data with
      | none => (bw, docNo', progress ++ [wline], some lengthErrorWhat)
      | some bw' =>
        let rest := processRecords pattern rs bw' docNo'
        (rest.1, rest.2.1, progress ++ wline :: rest.2.2.1, rest.2.2.2)

/-- The observable outcome of one run of `main` after a successful parse. -/
structure RunResult where
  exitCode : Nat
  dirCreated : Bool
  writer : BatchWriter
  table : List (String × String)
  log : List (OutStream × String)
deriving DecidableEq

/-- The body of `main` after `parse` returned (source lines 122–157): the
writer is constructed, then inside the `try` block the archive is opened
(modelled by the `Except` argument: `.error e` is a throwing `zim::File`
constructor with message `e`), the output directory is created, the pattern
is looked up with `disambig[language]`, and the records are processed; any
exception is caught at top level, its message printed to `cerr`, and `main`
falls through to a normal return (exit status 0). -/
def mainRun (args : Args) (archive : Except String (List Record)) : RunResult :=
  let bw := BatchWriter.init args.outputDir args.documents args.zeroes
  match archive with
  | Except.error e => ⟨0, false, bw, disambig, [(OutStream.stderr, e)]⟩
  | Except.ok records =>
    let looked := mapBracket disambig args.language
    let pr := processRecords looked.1 records bw 0
    match pr.2.2.2 with
    | some m => ⟨0, true, pr.1, looked.2, pr.2.2.1 ++ [(OutStream.stderr, m)]⟩
    | none => ⟨0, true, pr.1, looked.2, pr.2.2.1⟩

/-! ## Claim C3: filter exclusivity and rule order -/

/-- C3: classification is a total function into the five decisions, and each
decision is produced exactly under the first-match-wins conditions of the
fixed rule order: non-'A' namespace, then redirect, then deleted, then
pattern-in-title, else admit. -/
theorem classify_exclusive (r : Record) (pattern : String) :
    (classify r pattern = Decision.DropNotArticleNamespace ↔ r.ns ≠ 'A') ∧
    (classify r pattern = Decision.DropRedirect ↔
      r.ns = 'A' ∧ r.isRedirect = true) ∧
    (classify r pattern = Decision.DropDeleted ↔
      r.ns = 'A' ∧ r.isRedirect = false ∧ r.isDeleted = true) ∧
    (classify r pattern = Decision.DropDisambiguation ↔
      r.ns = 'A' ∧ r.isRedirect = false ∧ r.isDeleted = false ∧
      titleFind r.title pattern = true) ∧
    (classify r pattern = Decision.Admit ↔
      r.ns = 'A' ∧ r.isRedirect = false ∧ r.isDeleted = false ∧
      titleFind r.title pattern = false) := by
  by_cases hns : r.ns = 'A'
  · cases hr : r.isRedirect
    · cases hd : r.isDeleted
      · cases ht : titleFind r.title pattern
        · simp [classify, hns, hr, hd, ht]
        · simp [classify, hns, hr, hd, ht]
      · simp [classify, hns, hr, hd]
    · simp [classify, hns, hr]
  · simp [classify, hns]

/-- Witness for C3 at a concrete record outside namespace 'A'. -/
theorem classify_exclusive_witness :
    classify ⟨"Title", 'B', true, true, []⟩ "x" = Decision.DropNotArticleNamespace :=
  (classify_exclusive ⟨"Title", 'B', true, true, []⟩ "x").1.mpr (by decide)

/-! ## Claim C4: behaviour of the empty (fallback) pattern -/

/-- `find` with the empty pattern succeeds at position 0 of every string. -/
theorem hasSubstr_empty_pattern (hay : List Char) : hasSubstr hay [] = true := by
  cases hay <;> simp [hasSubstr, startsWith]

/-- C4 counterexample: under the empty pattern, a record in namespace 'A'
that is neither a redirect nor deleted is dropped as a disambiguation page —
not admitted as the claim states, because `std::string::find("")` returns 0,
which differs from `npos`. -/
theorem empty_pattern_counterexample :
    classify ⟨"Foo", 'A', false, false, []⟩ "" = Decision.DropDisambiguation ∧
    classify ⟨"Foo", 'A', false, false, []⟩ "" ≠ Decision.Admit := by
  decide

/-- C4 amended: when the language lookup fails, the configured pattern is
the empty string, and the empty pattern matches every title, so every record
in namespace 'A' that is neither a redirect nor deleted is dropped as a
disambiguation page (no such record is admitted). -/
theorem empty_pattern_drops_all (lang : String)
    (hl : mapFind disambig lang = none) (r : Record)
    (hns : r.ns = 'A') (hr : r.isRedirect = false) (hd : r.isDeleted = false) :
    (mapBracket disambig lang).1 = "" ∧
    classify r (mapBracket disambig lang).1 = Decision.DropDisambiguation := by
  have hp : (mapBracket disambig lang).1 = "" := by
    rw [mapBracket, hl]
  refine ⟨hp, ?_⟩
  rw [hp]
  have ht : titleFind r.title "" = true := by
    rw [titleFind]
    rw [show ("" : String).data = [] from rfl]
    exact hasSubstr_empty_pattern r.title.data
  simp [classify, hns, hr, hd, ht]

/-- Witness for the amended C4 at language "de" and a concrete record. -/
theorem empty_pattern_drops_all_witness :
    (mapBracket disambig "de").1 = "" ∧
    classify ⟨"Alice", 'A', false, false, [7]⟩ (mapBracket disambig "de").1 =
      Decision.DropDisambiguation :=
  empty_pattern_drops_all "de" (by decide) ⟨"Alice", 'A', false, false, [7]⟩ rfl rfl rfl

/-! ## Claim C5: file naming -/

/-- C5: padding to `zeroes` digits works while the index's decimal width
fits, but at `zeroes = 1` and index `10` the `size_t` pad count
`zeroes_ - num.length()` underflows and the `std::string` fill constructor
throws `std::length_error` — formatting fails instead of using the longer
representation "10.htmls.gz" as the claim (and the stated intent of the
`zeroes_` field, a *minimum* digit count) requires. -/
theorem formatFileName_overflow :
    formatFileName 4 1 = some "0001.htmls.gz" ∧
    formatFileName 1 9 = some "9.htmls.gz" ∧
    formatFileName 1 10 = none := by
  decide

/-! ## Claim C6: unsupported language code at startup -/

/-- C6 counterexample: with both required options present, no help request
and the unsupported language "de", `parse` proceeds (no `exit`, hence no
non-zero status and no termination before I/O), and the only diagnostic is a
warning on standard output — not on the error stream. -/
theorem unsupported_language_no_exit :
    (ArgumentParser.parse ⟨none, false, true, true, "de"⟩).1 = ParseOutcome.proceed ∧
    (ArgumentParser.parse ⟨none, false, true, true, "de"⟩).2 =
      [(OutStream.stdout,
        "Language 'de' is no supported. Choose between 'en' and 'hu'.")] := by
  decide

/-- C6 amended: for every invocation configuring an unsupported language
code (with the required options present and no help request), the process
prints a warning naming the language to the *standard output* stream and
continues — `parse` returns normally and the run proceeds to extraction. -/
theorem unsupported_language_warns (c : CmdLine)
    (hpe : c.parseError = none) (hh : c.help = false)
    (hi : c.hasInputFile = true) (ho : c.hasOutputDir = true)
    (hl : mapFind disambig c.language = none) :
    ArgumentParser.parse c =
      (ParseOutcome.proceed,
       [(OutStream.stdout,
         "Language '" ++ c.language ++ "' is no supported. Choose between 'en' and 'hu'.")]) := by
  simp [ArgumentParser.parse, hpe, hh, hi, ho, hl]

/-- Witness for the amended C6 at language "fr". -/
theorem unsupported_language_warns_witness :
    ArgumentParser.parse ⟨none, false, true, true, "fr"⟩ =
      (ParseOutcome.proceed,
       [(OutStream.stdout,
         "Language '" ++ "fr" ++ "' is no supported. Choose between 'en' and 'hu'.")]) :=
  unsupported_language_warns ⟨none, false, true, true, "fr"⟩ rfl rfl rfl rfl (by decide)

/-! ## Claim C7: immutability of the disambiguation table -/

/-- Appending an entry for a fresh key does not change other keys' lookups. -/
theorem mapFind_append_of_ne (m : List (String × String)) (k lang v : String)
    (hk : k ≠ lang) : mapFind (m ++ [(lang, v)]) k = mapFind m k := by
  induction m with
  | nil => simp [mapFind, hk]
  | cons kv m ih =>
    obtain ⟨k', v'⟩ := kv
    by_cases hkk : k = k'
    · simp [mapFind, hkk]
    · simp [mapFind, hkk, ih]

/-- C7 counterexample: the startup lookup `disambig[language]` for the
unsupported code "de" *changes the table's key set*: afterwards "de" is a
key (mapped to the empty string), so the table is not read-only under every
configured language code. -/
theorem table_mutation_counterexample :
    (mapBracket disambig "de").2 ≠ disambig ∧
    mapFind (mapBracket disambig "de").2 "de" = some "" ∧
    mapFind disambig "de" = none := by
  decide

/-- C7 amended: the lookup leaves the table unchanged exactly for supported
codes; for an unsupported code it inserts that key with the empty value —
all other keys' values (in particular the two original entries) are never
changed by the lookup. -/
theorem table_readonly_iff_supported (lang : String) :
    ((mapFind disambig lang).isSome → (mapBracket disambig lang).2 = disambig) ∧
    ((mapFind disambig lang).isNone →
      (mapBracket disambig lang).1 = "" ∧
      (mapBracket disambig lang).2 = disambig ++ [(lang, "")]) ∧
    (∀ k, k ≠ lang → mapFind (mapBracket disambig lang).2 k = mapFind disambig k) ∧
    mapFind (mapBracket disambig lang).2 "hu" = some "(egyértelműsítő lap)" ∧
    mapFind (mapBracket disambig lang).2 "en" = some "(disambiguation)" := by
  cases hl : mapFind disambig lang with
  | some v =>
    have h2 : (mapBracket disambig lang).2 = disambig := by
      rw [mapBracket, hl]
    refine ⟨fun _ => h2, ?_, fun k _ => by rw [h2], ?_, ?_⟩
    · intro hn
      simp at hn
    · rw [h2]; decide
    · rw [h2]; decide
  | none =>
    have h2 : (mapBracket disambig lang).2 = disambig ++ [(lang, "")] := by
      rw [mapBracket, hl]
    have hhu : lang ≠ "hu" := by
      intro h; rw [h] at hl; cases hl
    have hen : lang ≠ "en" := by
      intro h; rw [h] at hl; cases hl
    refine ⟨?_, fun _ => ⟨by rw [mapBracket, hl], h2⟩, ?_, ?_, ?_⟩
    · intro hs
      simp at hs
    · intro k hk
      rw [h2]
      exact mapFind_append_of_ne disambig k lang "" hk
    · rw [h2, mapFind_append_of_ne disambig "hu" lang "" (Ne.symm hhu)]
      decide
    · rw [h2, mapFind_append_of_ne disambig "en" lang "" (Ne.symm hen)]
      decide

/-- Witness for the amended C7: a supported lookup leaves the table as is. -/
theorem table_readonly_iff_supported_witness :
    (mapBracket disambig "hu").2 = disambig :=
  (table_readonly_iff_supported "hu").1 (by decide)

/-! ## Claim C8: runtime failures are caught, logged, and exit status stays 0 -/

/-- C8: whatever happens after configuration — the archive constructor
throwing, or a write throwing mid-run — `main`'s top-level catch prints the
exception message to the error stream and `main` returns normally: the exit
status is 0 in every case. -/
theorem runtime_errors_caught (args : Args) (archive : Except String (List Record)) :
    (mainRun args archive).exitCode = 0 ∧
    (∀ e, archive = Except.error e →
      (OutStream.stderr, e) ∈ (mainRun args archive).log) ∧
    (∀ records m, archive = Except.ok records →
      (processRecords (mapBracket disambig args.language).1 records
        (BatchWriter.init args.outputDir args.documents args.zeroes) 0).2.2.2 = some m →
      (OutStream.stderr, m) ∈ (mainRun args archive).log) := by
  cases archive with
  | error e =>
    refine ⟨rfl, ?_, ?_⟩
    · intro e' he
      obtain rfl := Except.error.inj he
      simp [mainRun]
    · intro records m he
      cases he
  | ok records =>
    simp only [mainRun]
    cases hpr : (processRecords (mapBracket disambig args.language).1 records
        (BatchWriter.init args.outputDir args.documents args.zeroes) 0).2.2.2 with
    | none =>
      simp only [hpr]
      refine ⟨?_, ?_, ?_⟩
      · trivial
      · intro e he
        cases he
      · intro recs m hok hm
        obtain rfl := Except.ok.inj hok
        rw [hpr] at hm
        cases hm
    | some m0 =>
      simp only [hpr]
      refine ⟨?_, ?_, ?_⟩
      · trivial
      · intro e he
        cases he
      · intro recs m hok hm
        obtain rfl := Except.ok.inj hok
        rw [hpr] at hm
        obtain rfl := Option.some.inj hm
        simp

/-- Witness for C8: a failing archive open is logged and the run exits 0. -/
theorem runtime_errors_caught_witness :
    (mainRun ⟨"in.zim", "out", "hu", 2500, 4⟩
      (Except.error "cannot open zim file")).exitCode = 0 ∧
    (OutStream.stderr, "cannot open zim file") ∈
      (mainRun ⟨"in.zim", "out", "hu", 2500, 4⟩
        (Except.error "cannot open zim file")).log :=
  ⟨(runtime_errors_caught ⟨"in.zim", "out", "hu", 2500, 4⟩ _).1,
   (runtime_errors_caught ⟨"in.zim", "out", "hu", 2500, 4⟩ _).2.1
     "cannot open zim file" rfl⟩

/-! ## Claim C9: help takes precedence over required-argument validation -/

/-- C9: an invocation with the help option (and no tokenizer error) prints
usage to standard output and exits with status 0, regardless of whether the
required input-file and output-dir options are present: the help check runs
before the missing-required-option check. -/
theorem help_precedence (c : CmdLine) (hpe : c.parseError = none)
    (hh : c.help = true) :
    ArgumentParser.parse c = (ParseOutcome.exited 0, [(OutStream.stdout, helpText)]) := by
  simp [ArgumentParser.parse, hpe, hh]

/-- Witness for C9: help requested with both required options missing. -/
theorem help_precedence_witness :
    ArgumentParser.parse ⟨none, true, false, false, "hu"⟩ =
      (ParseOutcome.exited 0, [(OutStream.stdout, helpText)]) :=
  help_precedence ⟨none, true, false, false, "hu"⟩ rfl rfl

/-! ## Claim C10: no output-side effects when the archive fails to open -/

/-- C10: when opening the source archive throws, the output directory is
never created and no batch file is ever opened: `fs::create_directory` is
sequenced after the `zim::File` constructor inside the `try` block, and the
writer still holds no files. -/
theorem archive_failure_no_output (args : Args) (e : String) :
    (mainRun args (Except.error e)).dirCreated = false ∧
    (mainRun args (Except.error e)).writer.files = [] :=
  ⟨rfl, rfl⟩
